import Mathlib

set_option linter.unusedVariables false

/-!
Shallow embedding of the Friday core: the `MemoryStore` dual backend
(structured SQLite table vs. append-only JSONL log, `src/unnamed/part_003`)
and the two-phase tool-dispatch orchestration `runChatWithTools`
(`src/server/src/openai/bridge.ts`), with the tool catalog of `tools.js`.

Strings are modelled on their character lists.  JavaScript string
operations (`includes`, `startsWith`, `toLowerCase`, `trim`, `slice`) and
the SQLite operators used by the store (`LIKE '%q%'`, `substr(s,1,10)`,
`ORDER BY created_at DESC`) are given explicit executable definitions.
Unicode-specific lowering beyond ASCII and SQLite `LIKE` wildcard
metacharacters (`%`, `_`) inside a query are outside the model: every
query in the claims is literal ASCII text, for which the definitions
below agree exactly with the engines.
-/

/-- JS `s.toLowerCase()` and the case folding of SQLite `LIKE`, on ASCII
letters (`Char.toLower` lowers exactly the ASCII range, as SQLite does). -/
def lowerStr (s : String) : String := ⟨s.data.map Char.toLower⟩

/-- Tests whether `need` is a leading block of `hay` (JS `hay.startsWith(need)`). -/
def listStarts : List Char → List Char → Bool
  | _, [] => true
  | [], _ :: _ => false
  | a :: as, b :: bs => a == b && listStarts as bs

/-- Tests whether `need` occurs contiguously inside `hay`
(JS `hay.includes(need)`). -/
def hasSub : List Char → List Char → Bool
  | [], need => need.isEmpty
  | a :: hs, need => listStarts (a :: hs) need || hasSub hs need

/-- JS `s.includes(t)`. -/
def strIncludes (s t : String) : Bool := hasSub s.data t.data

/-- JS `s.startsWith(t)`. -/
def strStarts (s t : String) : Bool := listStarts s.data t.data

/-- JS `s.slice(0, n)` and SQLite `substr(s, 1, n)`. -/
def strTake (s : String) (n : Nat) : String := ⟨s.data.take n⟩

/-- JS `s.trim()` (drops leading and trailing whitespace). -/
def strTrim (s : String) : String :=
  ⟨((s.data.dropWhile Char.isWhitespace).reverse.dropWhile Char.isWhitespace).reverse⟩

/-- Lexicographic `a <= b` on character lists by code point: the order SQLite's
default BINARY collation gives `ORDER BY created_at` on ASCII ISO timestamps. -/
def lexLeB : List Char → List Char → Bool
  | [], _ => true
  | _ :: _, [] => false
  | a :: as, b :: bs =>
    if a.toNat < b.toNat then true
    else if b.toNat < a.toNat then false
    else lexLeB as bs

/-- Strict lexicographic `a < b` on character lists by code point. -/
def lexLtB : List Char → List Char → Bool
  | [], [] => false
  | [], _ :: _ => true
  | _ :: _, [] => false
  | a :: as, b :: bs =>
    if a.toNat < b.toNat then true
    else if b.toNat < a.toNat then false
    else lexLtB as bs

/-- One row of the `memories` table / one line of `memory.jsonl`
(`MemoryItem` in `src/unnamed/part_003`). -/
structure MemoryItem where
  id : String
  key : String
  value : String
  created_at : String
deriving DecidableEq, Repr

/-- Comparison `ORDER BY created_at DESC` sorts by: `a` before `b` when
`b.created_at <= a.created_at`. -/
def recentLE (a b : MemoryItem) : Prop :=
  lexLeB b.created_at.data a.created_at.data = true

instance : DecidableRel recentLE := fun a b =>
  inferInstanceAs (Decidable (_ = true))

/-- A result sequence is most-recent-first when it is sorted by
non-increasing `created_at`. -/
def RecentFirst (l : List MemoryItem) : Prop := List.Sorted recentLE l

/-- A sequence in insertion order under a monotone clock: non-decreasing
`created_at`. -/
def OldestFirst (l : List MemoryItem) : Prop :=
  List.Sorted (fun a b => lexLeB a.created_at.data b.created_at.data = true) l

/-- Strictly increasing `created_at` along the list. -/
def StrictAsc (l : List MemoryItem) : Prop :=
  List.Pairwise (fun a b => lexLtB a.created_at.data b.created_at.data = true) l

instance : DecidableRel
    (fun a b : MemoryItem => lexLeB a.created_at.data b.created_at.data = true) :=
  fun a b => inferInstanceAs (Decidable (_ = true))

instance : DecidableRel
    (fun a b : MemoryItem => lexLtB a.created_at.data b.created_at.data = true) :=
  fun a b => inferInstanceAs (Decidable (_ = true))

instance (l : List MemoryItem) : Decidable (RecentFirst l) :=
  List.decidableSorted l

instance (l : List MemoryItem) : Decidable (OldestFirst l) :=
  List.decidableSorted l

instance (l : List MemoryItem) : Decidable (StrictAsc l) :=
  List.instDecidablePairwise l

/-- The row order produced by `SELECT * ... ORDER BY created_at DESC`.
Rows with equal timestamps come back in an order SQLite leaves unspecified;
the model fixes one (insertion sort), and every theorem that depends on the
order of results assumes distinct timestamps. -/
def sortDesc (l : List MemoryItem) : List MemoryItem := List.insertionSort recentLE l

/-- `MemoryStore.saveKV` (both backends): build the item from a fresh id and
the current clock reading (passed explicitly, standing for
`crypto.randomUUID()` and `new Date().toISOString()`) and append it durably
(`INSERT` row / `appendFileSync` line).  Returns the item and the new store
contents. -/
def saveKV (st : List MemoryItem) (id key value now : String) :
    MemoryItem × List MemoryItem :=
  let item : MemoryItem := ⟨id, key, value, now⟩
  (item, st ++ [item])

/-- `MemoryStore.listAll` on the JSONL backend: `lines.slice(-limit)` keeps the
last `limit` lines in file order.  JS `slice(-0)` is `slice(0)`, the whole
file, so `limit = 0` returns every line; a positive `limit` drops all but the
last `limit` lines (`max(length - limit, 0)` is Nat subtraction). -/
def listAllJsonl (st : List MemoryItem) (limit : Nat) : List MemoryItem :=
  if limit = 0 then st else st.drop (st.length - limit)

/-- `MemoryStore.listAll` on the SQLite backend:
`SELECT * FROM memories ORDER BY created_at DESC LIMIT ?`. -/
def listAllSqlite (st : List MemoryItem) (limit : Nat) : List MemoryItem :=
  (sortDesc st).take limit

/-- The JSONL search predicate:
`r.key.includes(query) || r.value.toLowerCase().includes(query.toLowerCase())`.
The key test is case-sensitive in the source; only the value test lowers. -/
def jsonlMatch (query : String) (r : MemoryItem) : Bool :=
  strIncludes r.key query || strIncludes (lowerStr r.value) (lowerStr query)

/-- The SQLite search predicate: `key LIKE '%q%' OR value LIKE '%q%'`,
case-insensitive on ASCII for both columns. -/
def sqliteMatch (query : String) (r : MemoryItem) : Bool :=
  strIncludes (lowerStr r.key) (lowerStr query) ||
    strIncludes (lowerStr r.value) (lowerStr query)

/-- Modelled from the spec's words in section 4.1 ("case-insensitive substring
match against `key` OR `value`"), for comparison against the source
predicates `jsonlMatch` and `sqliteMatch`. -/
def specMatch (query : String) (r : MemoryItem) : Bool :=
  strIncludes (lowerStr r.key) (lowerStr query) ||
    strIncludes (lowerStr r.value) (lowerStr query)

/-- `MemoryStore.search` on the JSONL backend: filter the lines in file order,
then `.slice(0, limit)` (the first `limit` matches, oldest first). -/
def searchJsonl (st : List MemoryItem) (query : String) (limit : Nat) :
    List MemoryItem :=
  (st.filter (jsonlMatch query)).take limit

/-- `MemoryStore.search` on the SQLite backend:
`SELECT * FROM memories WHERE key LIKE ? OR value LIKE ? ORDER BY created_at DESC LIMIT ?`. -/
def searchSqlite (st : List MemoryItem) (query : String) (limit : Nat) :
    List MemoryItem :=
  (sortDesc (st.filter (sqliteMatch query))).take limit

/-- `MemoryStore.forgetToday` on the JSONL backend: keep the lines whose
`created_at` does not start with `today` (the 10-character
`toISOString().slice(0, 10)` UTC date), rewrite the file with them, and
report `lines.length - kept.length` lines removed. -/
def forgetTodayJsonl (st : List MemoryItem) (today : String) :
    List MemoryItem × Nat :=
  let kept := st.filter (fun r => !(strStarts r.created_at today))
  (kept, st.length - kept.length)

/-- `MemoryStore.forgetToday` on the SQLite backend:
`DELETE FROM memories WHERE substr(created_at,1,10) = ?`; `changes` reports
the number of rows deleted. -/
def forgetTodaySqlite (st : List MemoryItem) (today : String) :
    List MemoryItem × Nat :=
  (st.filter (fun r => !(strTake r.created_at 10 == today)),
   (st.filter (fun r => strTake r.created_at 10 == today)).length)

/-- The fields of a parsed tool-call argument object that the bridge reads
(`args.key`, `args.value`, `args.query`, `args.limit`), after the JS
`String(...)` / `Number(...)` coercions. -/
structure ParsedArgs where
  key : Option String
  value : Option String
  query : Option String
  limit : Option Nat
deriving DecidableEq

deriving instance DecidableEq for Except

/-- A tool call from the first model response.  `arguments` holds the outcome
of `JSON.parse(call.function.arguments || "{}")` on the textual payload:
`.ok` with the parsed fields when the payload is valid JSON (an absent or
empty payload parses as the empty object, all fields `none`), `.error msg`
when `JSON.parse` throws with message `msg`. -/
structure ToolCall where
  id : String
  name : String
  arguments : Except String ParsedArgs
deriving DecidableEq

/-- Structural model of the `JSON.stringify(result)` payloads the bridge puts
into a ToolResult's content: a saved item, a list of items, a removed-count
object, or an `(error: ...)` object. -/
inductive ToolContent where
  | savedItem : MemoryItem → ToolContent
  | itemList : List MemoryItem → ToolContent
  | removedCount : Nat → ToolContent
  | errorMsg : String → ToolContent
deriving DecidableEq

/-- The tool message pushed for one tool call:
`(role: "tool", tool_call_id, name, content)`. -/
structure ToolResult where
  tool_call_id : String
  name : String
  content : ToolContent
deriving DecidableEq

/-- Recognizes an error payload (`(error: ...)`) in a ToolResult's content. -/
def isErrorPayload : ToolContent → Bool
  | .errorMsg _ => true
  | _ => false

/-- The memory-store interface as the bridge consumes it
(`memoryStore.saveKV / search / forgetToday / listAll` over state `σ`).
Each operation may fail: `.error msg` models the operation throwing an
exception whose message is `msg` (for example when the filesystem or the
database engine fails). -/
structure StoreOps (σ : Type) where
  saveKV : σ → String → String → Except String (MemoryItem × σ)
  search : σ → String → Except String (List MemoryItem)
  forgetToday : σ → Except String (σ × Nat)
  listAll : σ → Nat → Except String (List MemoryItem)

/-- The name-dispatch chain inside the per-call `try` of `runChatWithTools`:
`memory_save` trims `args.key`/`args.value` (absent fields default to the
empty string), `memory_search` passes `args.query`, `memory_list` passes
`args.limit` defaulting to 50, any other name yields the
`Unknown tool <name>` error object, and a caught store exception is encoded
as an error payload.  Returns the store state and the result content. -/
def runTool {σ : Type} (ops : StoreOps σ) (st : σ) (name : String)
    (args : ParsedArgs) : σ × ToolContent :=
  if name = "memory_save" then
    match ops.saveKV st (strTrim (args.key.getD "")) (strTrim (args.value.getD "")) with
    | .ok (item, st2) => (st2, .savedItem item)
    | .error e => (st, .errorMsg e)
  else if name = "memory_search" then
    match ops.search st (args.query.getD "") with
    | .ok items => (st, .itemList items)
    | .error e => (st, .errorMsg e)
  else if name = "memory_forget" then
    match ops.forgetToday st with
    | .ok (st2, n) => (st2, .removedCount n)
    | .error e => (st, .errorMsg e)
  else if name = "memory_list" then
    match ops.listAll st (args.limit.getD 50) with
    | .ok items => (st, .itemList items)
    | .error e => (st, .errorMsg e)
  else
    (st, .errorMsg ("Unknown tool " ++ name))

/-- One iteration of the tool-call loop.  In the source,
`JSON.parse(call.function.arguments || "{}")` runs BEFORE the `try` block,
so a payload that fails to parse propagates as an exception (`.error`)
instead of becoming a ToolResult; only after a successful parse is the
name dispatched and every operation error absorbed into the result. -/
def execCall {σ : Type} (ops : StoreOps σ) (st : σ) (call : ToolCall) :
    Except String (σ × ToolResult) :=
  match call.arguments with
  | .error e => .error e
  | .ok args =>
    let res := runTool ops st call.name args
    .ok (res.1, ⟨call.id, call.name, res.2⟩)

/-- The `for (const call of toolCalls)` loop: execute the calls in order,
collecting one ToolResult per call; an uncaught exception aborts the rest
of the batch and propagates out. -/
def dispatchBatch {σ : Type} (ops : StoreOps σ) (st : σ) :
    List ToolCall → Except String (σ × List ToolResult)
  | [] => .ok (st, [])
  | call :: rest =>
    match execCall ops st call with
    | .error e => .error e
    | .ok (st2, r) =>
      match dispatchBatch ops st2 rest with
      | .error e => .error e
      | .ok (st3, rs) => .ok (st3, r :: rs)

/-- The streaming loop over the follow-up response.  Each element of the
input is one chunk's `delta.content ?? ""`; only truthy (non-empty) deltas
are forwarded to `onDelta` and appended to `finalText`.  Returns the
fragments emitted to the caller in order, and the accumulated final text. -/
def streamLoop : List String → List String × String
  | [] => ([], "")
  | delta :: rest =>
    if delta = "" then streamLoop rest
    else
      let r := streamLoop rest
      (delta :: r.1, delta ++ r.2)

/-- Concatenation of emitted fragments, in emission order. -/
def concatAll : List String → String
  | [] => ""
  | s :: rest => s ++ concatAll rest

/-- The first model response as the bridge reads it:
`choice.message.content ?? ""` and `choice.message.tool_calls` (the empty
list models an absent or empty `tool_calls`). -/
structure ModelReply where
  content : String
  tool_calls : List ToolCall

/-- `runChatWithTools`, from the point the first model response is available.
With no tool calls, the response text is emitted once and returned.  With
tool calls, the batch is dispatched (its results are serialized back to the
model), and the follow-up streamed response — whose chunks arrive as
`chunks` — is forwarded fragment by fragment and accumulated.  The result is
the final store state, the fragments passed to `onDelta` in order, and the
returned text; `.error` models an exception escaping the function, ending
the exchange with no reply. -/
def runChatWithTools {σ : Type} (ops : StoreOps σ) (st : σ) (reply : ModelReply)
    (chunks : List String) : Except String (σ × List String × String) :=
  if reply.tool_calls.isEmpty then
    .ok (st, [reply.content], reply.content)
  else
    match dispatchBatch ops st reply.tool_calls with
    | .error e => .error e
    | .ok (st2, _results) =>
      let s := streamLoop chunks
      .ok (st2, s.1, s.2)

/-- The four tool names registered in `tools.js`. -/
def registeredToolNames : List String :=
  ["memory_save", "memory_search", "memory_forget", "memory_list"]

/-- True when the call's textual argument payload parses as JSON. -/
def argsOk (c : ToolCall) : Bool :=
  match c.arguments with
  | .ok _ => true
  | .error _ => false

/-- The JSONL-backed store state behind the bridge: the persisted items plus a
tick counter supplying fresh ids and clock readings (standing for
`crypto.randomUUID()` and the real clock). -/
structure JsonlState where
  items : List MemoryItem
  tick : Nat
deriving DecidableEq

/-- Fresh id supply for the JSONL store model. -/
def tickId (n : Nat) : String := "id-" ++ Nat.repr n

/-- Clock supply for the JSONL store model (ISO-like, second resolution). -/
def tickTime (n : Nat) : String := "2025-01-01T00:00:0" ++ Nat.repr n ++ ".000Z"

/-- The singleton `memoryStore` on its JSONL backend, wired behind the bridge
interface; `today` is the current UTC date prefix.  The pure backend never
throws, so every operation returns `.ok`. -/
def jsonlOps (today : String) : StoreOps JsonlState :=
  ⟨fun st k v =>
      let r := saveKV st.items (tickId st.tick) k v (tickTime st.tick)
      .ok (r.1, ⟨r.2, st.tick + 1⟩),
   fun st q => .ok (searchJsonl st.items q 50),
   fun st =>
      let r := forgetTodayJsonl st.items today
      .ok (⟨r.1, st.tick⟩, r.2),
   fun st n => .ok (listAllJsonl st.items n)⟩

/-- A store whose every operation throws, to exercise the per-call
error absorption of the dispatcher. -/
def failingOps : StoreOps Unit :=
  ⟨fun _ _ _ => .error "db is locked",
   fun _ _ => .error "db is locked",
   fun _ => .error "db is locked",
   fun _ _ => .error "db is locked"⟩

instance : IsTotal MemoryItem recentLE :=
  ⟨by
    have h : ∀ a b : List Char, lexLeB a b = true ∨ lexLeB b a = true := by
      intro a
      induction a with
      | nil => intro b; left; rfl
      | cons x xs ih =>
        intro b
        cases b with
        | nil => right; rfl
        | cons y ys =>
          by_cases h1 : x.toNat < y.toNat
          · left; simp [lexLeB, h1]
          · by_cases h2 : y.toNat < x.toNat
            · right; simp [lexLeB, h2]
            · rcases ih ys with h3 | h3
              · left; simp [lexLeB, h1, h2, h3]
              · right; simp [lexLeB, h1, h2, h3]
    intro a b
    exact h b.created_at.data a.created_at.data⟩

instance : IsTrans MemoryItem recentLE :=
  ⟨by
    have h : ∀ a b c : List Char, lexLeB a b = true → lexLeB b c = true →
        lexLeB a c = true := by
      intro a
      induction a with
      | nil => intro b c _ _; rfl
      | cons x xs ih =>
        intro b c hab hbc
        cases b with
        | nil => simp [lexLeB] at hab
        | cons y ys =>
          cases c with
          | nil => simp [lexLeB] at hbc
          | cons z zs =>
            simp only [lexLeB] at hab hbc ⊢
            by_cases hxy : x.toNat < y.toNat
            · by_cases hyz : y.toNat < z.toNat
              · simp [Nat.lt_trans hxy hyz]
              · by_cases hzy : z.toNat < y.toNat
                · simp [hyz, hzy] at hbc
                · have hyez : y.toNat = z.toNat :=
                    Nat.le_antisymm (Nat.le_of_not_lt hzy) (Nat.le_of_not_lt hyz)
                  simp [hyez ▸ hxy]
            · by_cases hyx : y.toNat < x.toNat
              · simp [hxy, hyx] at hab
              · have hxey : x.toNat = y.toNat :=
                  Nat.le_antisymm (Nat.le_of_not_lt hyx) (Nat.le_of_not_lt hxy)
                by_cases hyz : y.toNat < z.toNat
                · simp [hxey ▸ hyz]
                · by_cases hzy : z.toNat < y.toNat
                  · simp [hyz, hzy] at hbc
                  · simp only [hxy, hyx, if_neg, ite_false] at hab
                    simp only [hyz, hzy, if_neg, ite_false] at hbc
                    simp [hxey ▸ hyz, hxey ▸ hzy, ih ys zs hab hbc]
    intro a b c h1 h2
    exact h c.created_at.data b.created_at.data a.created_at.data h2 h1⟩

/-- A store of two items, reached from the empty store by two saves under a
monotone clock (older item first in insertion order). -/
def twoSaves : List MemoryItem :=
  (saveKV (saveKV [] "id-0" "note" "alpha" "2025-01-01T08:00:00.000Z").2
    "id-1" "note" "beta" "2025-01-02T09:00:00.000Z").2

/-- A sample stored item. -/
def demoItem : MemoryItem := ⟨"m1", "name", "Bradley", "2025-01-03T10:00:00.000Z"⟩

/-- A stored item whose key differs from a query only by letter case. -/
def caseItem : MemoryItem := ⟨"m2", "Name", "xyz", "2025-01-03T10:00:00.000Z"⟩

/-- An already-stored item matching the key `color`. -/
def oldColorItem : MemoryItem := ⟨"m-old", "color", "red", "2025-01-01T00:00:00.000Z"⟩

/-- A JSONL store already holding fifty items that match the key `color` —
as many as the default search limit. -/
def fullJsonlStore : List MemoryItem := List.replicate 50 oldColorItem

/-- A tool call with an unregistered name whose argument payload is not valid
JSON. -/
def unknownBadCall : ToolCall :=
  ⟨"call-9", "unknown_tool", .error "SyntaxError: Unexpected token"⟩

/-- A tool call with an unregistered name and a well-formed (empty-object)
argument payload. -/
def unknownOkCall : ToolCall := ⟨"call-1", "unknown_tool", .ok ⟨none, none, none, none⟩⟩

/-- A well-formed `memory_save` tool call. -/
def saveGoodCall : ToolCall :=
  ⟨"call-1", "memory_save", .ok ⟨some "color", some "blue", none, none⟩⟩

/-- A `memory_save` tool call whose argument payload is not valid JSON. -/
def saveBadCall : ToolCall :=
  ⟨"call-2", "memory_save", .error "Unexpected token u in JSON"⟩

/-- A list is a leading block of itself. -/
theorem listStarts_refl (l : List Char) : listStarts l l = true := by
  induction l with
  | nil => rfl
  | cons a as ih => simp [listStarts, ih]

/-- Every string contains itself as a substring. -/
theorem hasSub_self (l : List Char) : hasSub l l = true := by
  cases l with
  | nil => rfl
  | cons a as => simp [hasSub, listStarts_refl]

/-- Every string contains the empty substring (JS `"x".includes("")`). -/
theorem hasSub_nil (l : List Char) : hasSub l [] = true := by
  cases l with
  | nil => rfl
  | cons a as => simp [hasSub, listStarts]

/-- `strIncludes` is reflexive. -/
theorem strIncludes_self (s : String) : strIncludes s s = true :=
  hasSub_self s.data

/-- Every item matches the empty query on the JSONL backend. -/
theorem jsonlMatch_empty (r : MemoryItem) : jsonlMatch "" r = true := by
  have h : lowerStr "" = "" := rfl
  simp [jsonlMatch, strIncludes, h, hasSub_nil]

/-- Every item matches the empty query on the SQLite backend. -/
theorem sqliteMatch_empty (r : MemoryItem) : sqliteMatch "" r = true := by
  have h : lowerStr "" = "" := rfl
  simp [sqliteMatch, strIncludes, h, hasSub_nil]

/-- Strict lexicographic order contradicts the reverse non-strict order. -/
theorem lexLtB_not_leB : ∀ a b : List Char, lexLtB a b = true → lexLeB b a = false := by
  intro a
  induction a with
  | nil =>
    intro b h
    cases b with
    | nil => simp [lexLtB] at h
    | cons y ys => rfl
  | cons x xs ih =>
    intro b h
    cases b with
    | nil => simp [lexLtB] at h
    | cons y ys =>
      simp only [lexLtB] at h
      simp only [lexLeB]
      by_cases hxy : x.toNat < y.toNat
      · have hyx : ¬ y.toNat < x.toNat := Nat.lt_asymm hxy
        simp [hyx, hxy]
      · by_cases hyx : y.toNat < x.toNat
        · simp [hxy, hyx] at h
        · simp only [hxy, hyx, ite_false] at h
          simp [hxy, hyx, ih ys h]

/-- `sortDesc` permutes the stored rows. -/
theorem sortDesc_perm (l : List MemoryItem) : List.Perm (sortDesc l) l :=
  List.perm_insertionSort recentLE l

/-- `sortDesc` keeps exactly the stored rows. -/
theorem mem_sortDesc {r : MemoryItem} {l : List MemoryItem} :
    r ∈ sortDesc l ↔ r ∈ l :=
  (sortDesc_perm l).mem_iff

/-- `sortDesc` preserves length. -/
theorem length_sortDesc (l : List MemoryItem) : (sortDesc l).length = l.length :=
  (sortDesc_perm l).length_eq

/-- `sortDesc` output is most-recent-first. -/
theorem sortDesc_sorted (l : List MemoryItem) : RecentFirst (sortDesc l) :=
  List.sorted_insertionSort recentLE l

/-- An element below everything in the list is inserted at the end. -/
theorem orderedInsert_append_last {a : MemoryItem} {l : List MemoryItem}
    (h : ∀ b ∈ l, ¬ recentLE a b) :
    List.orderedInsert recentLE a l = l ++ [a] := by
  induction l with
  | nil => rfl
  | cons b bs ih =>
    have hb : ¬ recentLE a b := h b (List.mem_cons_self b bs)
    simp only [List.orderedInsert, if_neg hb, List.cons_append]
    rw [ih (fun x hx => h x (List.mem_cons_of_mem b hx))]

/-- Appending an item strictly newer than everything stored puts it first in
the `ORDER BY created_at DESC` view. -/
theorem sortDesc_append_newest {l : List MemoryItem} {x : MemoryItem}
    (h : ∀ y ∈ l, lexLtB y.created_at.data x.created_at.data = true) :
    sortDesc (l ++ [x]) = x :: sortDesc l := by
  induction l with
  | nil => rfl
  | cons y ys ih =>
    have hy : lexLtB y.created_at.data x.created_at.data = true :=
      h y (List.mem_cons_self y ys)
    have hrest := ih (fun z hz => h z (List.mem_cons_of_mem y hz))
    have hstep : (y :: ys) ++ [x] = y :: (ys ++ [x]) := rfl
    rw [hstep]
    show List.orderedInsert recentLE y (sortDesc (ys ++ [x])) =
      x :: List.orderedInsert recentLE y (sortDesc ys)
    rw [hrest]
    have hnot : ¬ recentLE y x := by
      simp [recentLE, lexLtB_not_leB _ _ hy]
    simp only [List.orderedInsert, if_neg hnot]

/-- On strictly ascending timestamps, the SQLite view is exactly the reversed
insertion order. -/
theorem sortDesc_of_strictAsc {l : List MemoryItem} (h : StrictAsc l) :
    sortDesc l = l.reverse := by
  induction l with
  | nil => rfl
  | cons x xs ih =>
    have hx : ∀ y ∈ xs, lexLtB x.created_at.data y.created_at.data = true :=
      (List.pairwise_cons.mp h).1
    have hxs : StrictAsc xs := (List.pairwise_cons.mp h).2
    simp only [sortDesc, List.insertionSort] at ih ⊢
    rw [ih hxs]
    have hnot : ∀ b ∈ xs.reverse, ¬ recentLE x b := by
      intro b hb
      have hb2 : b ∈ xs := List.mem_reverse.mp hb
      simp [recentLE, lexLtB_not_leB _ _ (hx b hb2)]
    rw [orderedInsert_append_last hnot, List.reverse_cons]

/-- The stored rows split into the deleted and the kept ones by length. -/
theorem filter_length_split (p : MemoryItem → Bool) (l : List MemoryItem) :
    (l.filter p).length + (l.filter (fun a => !(p a))).length = l.length := by
  induction l with
  | nil => rfl
  | cons a as ih =>
    simp only [List.filter_cons, List.length_cons]
    by_cases h : p a = true
    · simp [h]
      omega
    · have h2 : p a = false := Bool.eq_false_iff.mpr h
      simp [h2]
      omega

/-- The `startsWith` test agrees with comparing the leading block of the
needle's length. -/
theorem listStarts_eq_take : ∀ hay need : List Char,
    listStarts hay need = true ↔ hay.take need.length = need := by
  intro hay
  induction hay with
  | nil =>
    intro need
    cases need with
    | nil => simp [listStarts]
    | cons b bs => simp [listStarts]
  | cons a as ih =>
    intro need
    cases need with
    | nil => simp [listStarts]
    | cons b bs =>
      simp only [listStarts, List.length_cons, List.take_succ_cons,
        Bool.and_eq_true, beq_iff_eq, List.cons.injEq]
      constructor
      · rintro ⟨h1, h2⟩
        exact ⟨h1, (ih bs).mp h2⟩
      · rintro ⟨h1, h2⟩
        exact ⟨h1, (ih bs).mpr h2⟩

/-- The text accumulated by the streaming loop is the concatenation of the
fragments it emits. -/
theorem concat_streamLoop (cs : List String) :
    concatAll (streamLoop cs).1 = (streamLoop cs).2 := by
  induction cs with
  | nil => rfl
  | cons d rest ih =>
    by_cases h : d = ""
    · simp [streamLoop, h, ih]
    · simp [streamLoop, h, concatAll, ih]

/-- A call whose payload parses never raises: dispatch always wraps it into a
ToolResult, whatever the store operations do. -/
theorem execCall_ok_of_argsOk {σ : Type} (ops : StoreOps σ) (st : σ)
    (c : ToolCall) (h : argsOk c = true) :
    ∃ st2 r, execCall ops st c = .ok (st2, r) := by
  unfold argsOk at h
  cases harg : c.arguments with
  | error e => rw [harg] at h; simp at h
  | ok args =>
    refine ⟨(runTool ops st c.name args).1, ⟨c.id, c.name, (runTool ops st c.name args).2⟩, ?_⟩
    simp [execCall, harg]

/-- When every payload in the batch parses, the loop completes with exactly one
ToolResult per call, correlated positionally by call id and name, and every
unregistered name yields an error payload. -/
theorem dispatchBatch_ok_of_argsOk {σ : Type} (ops : StoreOps σ) (st : σ)
    (calls : List ToolCall) (hp : ∀ c ∈ calls, argsOk c = true) :
    ∃ st2 results, dispatchBatch ops st calls = .ok (st2, results) ∧
      results.length = calls.length ∧
      ∀ p ∈ calls.zip results,
        p.2.tool_call_id = p.1.id ∧ p.2.name = p.1.name ∧
        (p.1.name ∉ registeredToolNames → isErrorPayload p.2.content = true) := by
  induction calls generalizing st with
  | nil => exact ⟨st, [], rfl, rfl, by intro p hp2; simp at hp2⟩
  | cons c rest ih =>
    have hc : argsOk c = true := hp c (List.mem_cons_self c rest)
    cases harg : c.arguments with
    | error e => unfold argsOk at hc; rw [harg] at hc; simp at hc
    | ok args =>
      obtain ⟨st2, results, hdisp, hlen, hcorr⟩ :=
        ih (runTool ops st c.name args).1 (fun x hx => hp x (List.mem_cons_of_mem c hx))
      refine ⟨st2, ⟨c.id, c.name, (runTool ops st c.name args).2⟩ :: results, ?_, ?_, ?_⟩
      · simp [dispatchBatch, execCall, harg, hdisp]
      · simp [hlen]
      · intro p hpz
        rcases List.mem_cons.mp hpz with hhd | htl
        · subst hhd
          refine ⟨rfl, rfl, ?_⟩
          intro hname
          have h1 : c.name ≠ "memory_save" := by
            intro h; rw [h] at hname; simp [registeredToolNames] at hname
          have h2 : c.name ≠ "memory_search" := by
            intro h; rw [h] at hname; simp [registeredToolNames] at hname
          have h3 : c.name ≠ "memory_forget" := by
            intro h; rw [h] at hname; simp [registeredToolNames] at hname
          have h4 : c.name ≠ "memory_list" := by
            intro h; rw [h] at hname; simp [registeredToolNames] at hname
          simp [runTool, h1, h2, h3, h4, isErrorPayload]
        · exact hcorr p htl

/-- A dispatched batch that completes lets the exchange reach the streamed
final reply. -/
theorem runChat_completes {σ : Type} (ops : StoreOps σ) (st : σ)
    (reply : ModelReply) (chunks : List String)
    (h : ∃ st2 rs, dispatchBatch ops st reply.tool_calls = .ok (st2, rs)) :
    ∃ st3 frags finalText,
      runChatWithTools ops st reply chunks = .ok (st3, frags, finalText) := by
  obtain ⟨st2, rs, hd⟩ := h
  by_cases he : reply.tool_calls.isEmpty
  · exact ⟨st, [reply.content], reply.content, by simp [runChatWithTools, he]⟩
  · refine ⟨st2, (streamLoop chunks).1, (streamLoop chunks).2, ?_⟩
    simp [runChatWithTools, he, hd]

/-- Concatenating a single emitted fragment gives that fragment back. -/
theorem concatAll_singleton (s : String) : concatAll [s] = s := by
  show s ++ concatAll [] = s
  show s ++ "" = s
  exact String.append_empty s

/-- C7: on both backends, `forgetToday` deletes exactly the items whose
`created_at` falls on the current calendar day (the 10-character UTC date
prefix `today` of `toISOString()`), leaves every other item stored, returns
`removed` equal to the number deleted, and an immediately repeated call
returns `removed = 0`. -/
theorem c7_forgetToday_purges_exactly_today (st : List MemoryItem) (today : String) :
    ((forgetTodayJsonl st today).2 =
      (st.filter (fun r => strStarts r.created_at today)).length) ∧
    (∀ r, r ∈ (forgetTodayJsonl st today).1 ↔
      r ∈ st ∧ strStarts r.created_at today = false) ∧
    (forgetTodayJsonl (forgetTodayJsonl st today).1 today =
      ((forgetTodayJsonl st today).1, 0)) ∧
    ((forgetTodaySqlite st today).2 =
      (st.filter (fun r => strTake r.created_at 10 == today)).length) ∧
    (∀ r, r ∈ (forgetTodaySqlite st today).1 ↔
      r ∈ st ∧ (strTake r.created_at 10 == today) = false) ∧
    (forgetTodaySqlite (forgetTodaySqlite st today).1 today =
      ((forgetTodaySqlite st today).1, 0)) := by
  have hsplitJ := filter_length_split (fun r => strStarts r.created_at today) st
  have hsplitS := filter_length_split (fun r => strTake r.created_at 10 == today) st
  refine ⟨?_, ?_, ?_, ?_, ?_, ?_⟩
  · simp only [forgetTodayJsonl]
    omega
  · intro r
    simp [forgetTodayJsonl, List.mem_filter]
  · have hkept : ((st.filter (fun r => !(strStarts r.created_at today))).filter
        (fun r => !(strStarts r.created_at today))) =
        st.filter (fun r => !(strStarts r.created_at today)) :=
      List.filter_eq_self.mpr (fun a ha => (List.mem_filter.mp ha).2)
    simp only [forgetTodayJsonl, hkept, Nat.sub_self]
  · simp only [forgetTodaySqlite]
  · intro r
    simp [forgetTodaySqlite, List.mem_filter]
  · have hkept : ((st.filter (fun r => !(strTake r.created_at 10 == today))).filter
        (fun r => !(strTake r.created_at 10 == today))) =
        st.filter (fun r => !(strTake r.created_at 10 == today)) :=
      List.filter_eq_self.mpr (fun a ha => (List.mem_filter.mp ha).2)
    have hgone : ((st.filter (fun r => !(strTake r.created_at 10 == today))).filter
        (fun r => strTake r.created_at 10 == today)) = [] := by
      rw [List.filter_filter]
      have hfalse : ∀ a : MemoryItem,
          ((strTake a.created_at 10 == today) && !(strTake a.created_at 10 == today)) = false := by
        intro a
        cases strTake a.created_at 10 == today <;> rfl
      calc (st.filter fun a => (strTake a.created_at 10 == today) &&
              !(strTake a.created_at 10 == today))
          = st.filter (fun _ => false) := List.filter_congr (fun a _ => hfalse a)
        _ = [] := List.filter_false st
    simp only [forgetTodaySqlite, hkept, hgone, List.length_nil]

/-- C9: the concatenation, in emission order, of all text fragments passed to
the caller's delta callback equals the full text `runChatWithTools` returns,
for any fragmentation of the model's reply into chunks. -/
theorem c9_stream_concat_eq_final {σ : Type} (ops : StoreOps σ) (st : σ)
    (reply : ModelReply) (chunks : List String) (st2 : σ)
    (frags : List String) (finalText : String)
    (h : runChatWithTools ops st reply chunks = .ok (st2, frags, finalText)) :
    concatAll frags = finalText := by
  unfold runChatWithTools at h
  by_cases he : reply.tool_calls.isEmpty
  · rw [if_pos he] at h
    have h2 := Except.ok.inj h
    have hfrags : frags = [reply.content] := (congrArg (fun p => p.2.1) h2).symm
    have hfin : finalText = reply.content := (congrArg (fun p => p.2.2) h2).symm
    rw [hfrags, hfin, concatAll_singleton]
  · rw [if_neg he] at h
    cases hd : dispatchBatch ops st reply.tool_calls with
    | error e => rw [hd] at h; simp at h
    | ok p =>
      rw [hd] at h
      have h2 := Except.ok.inj h
      have hfrags : frags = (streamLoop chunks).1 := (congrArg (fun q => q.2.1) h2).symm
      have hfin : finalText = (streamLoop chunks).2 := (congrArg (fun q => q.2.2) h2).symm
      rw [hfrags, hfin]
      exact concat_streamLoop chunks

/-- C9 witnessed on a concrete tool-call exchange whose follow-up stream
arrives in three chunks, one of them empty. -/
theorem c9_witness : concatAll ["Saved ", "it."] = "Saved it." :=
  c9_stream_concat_eq_final (jsonlOps "2025-01-01") ⟨[], 0⟩ ⟨"", [saveGoodCall]⟩
    ["Saved ", "", "it."] ⟨[⟨"id-0", "color", "blue", "2025-01-01T00:00:00.000Z"⟩], 1⟩
    ["Saved ", "it."] "Saved it." rfl

/-- C10: on the log backend `listAll(0)` returns every stored item
(`lines.slice(-0)` is `lines.slice(0)`), while the structured backend's
`LIMIT 0` returns no rows — so on every non-empty store the two backends
diverge at this edge of the public interface. -/
theorem c10_listAll_zero_divergence (st : List MemoryItem) :
    listAllJsonl st 0 = st ∧ listAllSqlite st 0 = [] ∧
    (st ≠ [] → listAllJsonl st 0 ≠ listAllSqlite st 0) := by
  refine ⟨rfl, by simp [listAllSqlite], ?_⟩
  intro hne
  simpa [listAllJsonl, listAllSqlite] using hne

/-- C10 witnessed on a one-item store. -/
theorem c10_witness :
    listAllJsonl [demoItem] 0 = [demoItem] ∧ listAllSqlite [demoItem] 0 = [] ∧
    listAllJsonl [demoItem] 0 ≠ listAllSqlite [demoItem] 0 :=
  ⟨(c10_listAll_zero_divergence [demoItem]).1,
   (c10_listAll_zero_divergence [demoItem]).2.1,
   (c10_listAll_zero_divergence [demoItem]).2.2 (by decide)⟩

/-- C4 fails on the code: searching with the empty query returns the stored
rows, not the empty result set, on both backends. -/
theorem c4_counterexample_empty_query :
    searchJsonl [demoItem] "" 50 ≠ [] ∧ searchSqlite [demoItem] "" 50 ≠ [] := by
  exact ⟨by decide, by decide⟩

/-- C4 amended: the empty query matches every stored row (every string contains
the empty substring; `LIKE '%%'` matches any column), so an empty-query search
returns all rows up to the limit — in file order on the log backend and
most-recent-first on the structured backend. -/
theorem c4_amended_empty_query_returns_all (st : List MemoryItem) (limit : Nat) :
    searchJsonl st "" limit = st.take limit ∧
    searchSqlite st "" limit = (sortDesc st).take limit := by
  have hj : st.filter (jsonlMatch "") = st :=
    List.filter_eq_self.mpr (fun a _ => jsonlMatch_empty a)
  have hs : st.filter (sqliteMatch "") = st :=
    List.filter_eq_self.mpr (fun a _ => sqliteMatch_empty a)
  constructor
  · simp only [searchJsonl, hj]
  · simp only [searchSqlite, hs]

/-- C1 fails as stated: in the source, `JSON.parse` of the argument payload
runs before the name is inspected and before the `try` block, so an
unknown-named tool call whose payload is malformed JSON raises, aborts the
batch with no ToolResult, and the exchange never reaches a final reply. -/
theorem c1_counterexample_unknown_tool_aborts :
    dispatchBatch (jsonlOps "2025-01-01") ⟨[], 0⟩ [unknownBadCall] =
      .error "SyntaxError: Unexpected token" ∧
    runChatWithTools (jsonlOps "2025-01-01") ⟨[], 0⟩ ⟨"", [unknownBadCall]⟩ ["done"] =
      .error "SyntaxError: Unexpected token" :=
  ⟨rfl, rfl⟩

/-- C1 amended: provided every argument payload in the batch parses as JSON,
a tool call with an unregistered name never raises or aborts the
orchestration — dispatch produces a ToolResult for it whose content is the
`Unknown tool` error payload, every call in the batch is executed (one
ToolResult per call, correlated by call id and name), and the exchange
still reaches a final streamed reply. -/
theorem c1_amended_unknown_tool_becomes_error_result {σ : Type}
    (ops : StoreOps σ) (st : σ) (calls : List ToolCall)
    (content : String) (chunks : List String)
    (hp : ∀ c ∈ calls, argsOk c = true) :
    ∃ st2 results, dispatchBatch ops st calls = .ok (st2, results) ∧
      results.length = calls.length ∧
      (∀ p ∈ calls.zip results,
        p.2.tool_call_id = p.1.id ∧ p.2.name = p.1.name ∧
        (p.1.name ∉ registeredToolNames → isErrorPayload p.2.content = true)) ∧
      ∃ st3 frags finalText,
        runChatWithTools ops st ⟨content, calls⟩ chunks = .ok (st3, frags, finalText) := by
  obtain ⟨st2, results, hd, hlen, hcorr⟩ := dispatchBatch_ok_of_argsOk ops st calls hp
  exact ⟨st2, results, hd, hlen, hcorr,
    runChat_completes ops st ⟨content, calls⟩ chunks ⟨st2, results, hd⟩⟩

/-- C1 amended, witnessed on a batch of one unknown-named call (well-formed
payload) followed by a valid save. -/
theorem c1_witness :
    (∀ c ∈ [unknownOkCall, saveGoodCall], argsOk c = true) ∧
    (∃ st2 results,
      dispatchBatch (jsonlOps "2025-01-01") ⟨[], 0⟩ [unknownOkCall, saveGoodCall] =
        .ok (st2, results) ∧
      results.length = [unknownOkCall, saveGoodCall].length ∧
      (∀ p ∈ [unknownOkCall, saveGoodCall].zip results,
        p.2.tool_call_id = p.1.id ∧ p.2.name = p.1.name ∧
        (p.1.name ∉ registeredToolNames → isErrorPayload p.2.content = true)) ∧
      ∃ st3 frags finalText,
        runChatWithTools (jsonlOps "2025-01-01") ⟨[], 0⟩
          ⟨"", [unknownOkCall, saveGoodCall]⟩ ["ok"] = .ok (st3, frags, finalText)) :=
  ⟨by decide,
   c1_amended_unknown_tool_becomes_error_result (jsonlOps "2025-01-01") ⟨[], 0⟩
     [unknownOkCall, saveGoodCall] "" ["ok"] (by decide)⟩

/-- C2 fails as stated: an error while parsing one call's textual argument
payload is not absorbed into that call's ToolResult — it aborts the whole
batch as control flow, the remaining valid save is never executed, and the
exchange ends in an error instead of a reply. -/
theorem c2_counterexample_parse_error_aborts_batch :
    dispatchBatch (jsonlOps "2025-01-01") ⟨[], 0⟩ [saveBadCall, saveGoodCall] =
      .error "Unexpected token u in JSON" ∧
    runChatWithTools (jsonlOps "2025-01-01") ⟨[], 0⟩ ⟨"", [saveBadCall, saveGoodCall]⟩
      ["done"] = .error "Unexpected token u in JSON" :=
  ⟨rfl, rfl⟩

/-- C2 amended: once a call's textual payload has parsed, any error raised by
its Memory Store operation is absorbed for that call alone and encoded as
data into that call's ToolResult content (for a failing save, the thrown
message comes back as an error payload with the state untouched); the rest
of the batch still executes, one ToolResult per call, whatever the store
operations do, and the exchange completes.  A payload that fails to parse,
by contrast, aborts the batch (see the counterexample). -/
theorem c2_amended_store_errors_absorbed_as_data {σ : Type} (ops : StoreOps σ)
    (st : σ) (calls : List ToolCall) (hp : ∀ c ∈ calls, argsOk c = true) :
    (∀ s c, c ∈ calls → ∃ s2 r, execCall ops s c = .ok (s2, r)) ∧
    (∀ s (c : ToolCall) args e, c.arguments = .ok args → c.name = "memory_save" →
      ops.saveKV s (strTrim (args.key.getD "")) (strTrim (args.value.getD "")) =
        .error e →
      execCall ops s c = .ok (s, ⟨c.id, c.name, .errorMsg e⟩)) ∧
    (∃ st2 results, dispatchBatch ops st calls = .ok (st2, results) ∧
      results.length = calls.length) ∧
    (∀ content chunks, ∃ st3 frags finalText,
      runChatWithTools ops st ⟨content, calls⟩ chunks = .ok (st3, frags, finalText)) := by
  obtain ⟨st2, results, hd, hlen, _⟩ := dispatchBatch_ok_of_argsOk ops st calls hp
  refine ⟨?_, ?_, ⟨st2, results, hd, hlen⟩, ?_⟩
  · intro s c hc
    exact execCall_ok_of_argsOk ops s c (hp c hc)
  · intro s c args e h1 h2 h3
    simp [execCall, h1, runTool, h2, h3]
  · intro content chunks
    exact runChat_completes ops st ⟨content, calls⟩ chunks ⟨st2, results, hd⟩

/-- C2 amended, witnessed against a store whose every operation throws: the
save call's failure is still absorbed and the exchange completes. -/
theorem c2_witness :
    (∀ c ∈ [saveGoodCall], argsOk c = true) ∧
    ((∀ s c, c ∈ [saveGoodCall] → ∃ s2 r, execCall failingOps s c = .ok (s2, r)) ∧
     (∀ s (c : ToolCall) args e, c.arguments = .ok args → c.name = "memory_save" →
       failingOps.saveKV s (strTrim (args.key.getD "")) (strTrim (args.value.getD "")) =
         .error e →
       execCall failingOps s c = .ok (s, ⟨c.id, c.name, .errorMsg e⟩)) ∧
     (∃ st2 results, dispatchBatch failingOps () [saveGoodCall] = .ok (st2, results) ∧
       results.length = [saveGoodCall].length) ∧
     (∀ content chunks, ∃ st3 frags finalText,
       runChatWithTools failingOps () ⟨content, [saveGoodCall]⟩ chunks =
         .ok (st3, frags, finalText))) :=
  ⟨by decide,
   c2_amended_store_errors_absorbed_as_data failingOps () [saveGoodCall] (by decide)⟩

/-- C5 fails on the code: `caseItem` (key "Name") qualifies under the spec's
case-insensitive predicate for query "name", but the log backend's key test
is case-sensitive, so the search misses the item entirely. -/
theorem c5_counterexample_key_case_sensitivity :
    specMatch "name" caseItem = true ∧ searchJsonl [caseItem] "name" 50 = [] :=
  ⟨by decide, by decide⟩

/-- C5 amended: on the structured backend an item qualifies exactly per the
spec's predicate — the query is a case-insensitive substring of its key or
its value; on the log backend only the value test is case-insensitive, and
the key test is case-sensitive: the item qualifies exactly when its raw key
contains the raw query or its lowered value contains the lowered query. -/
theorem c5_amended_match_semantics (st : List MemoryItem) (q : String)
    (r : MemoryItem) :
    (r ∈ searchSqlite st q st.length ↔ r ∈ st ∧ specMatch q r = true) ∧
    (r ∈ searchJsonl st q st.length ↔
      r ∈ st ∧
        (strIncludes r.key q || strIncludes (lowerStr r.value) (lowerStr q)) = true) := by
  constructor
  · have hlen : (sortDesc (st.filter (sqliteMatch q))).length ≤ st.length := by
      rw [length_sortDesc]
      exact List.length_filter_le _ _
    rw [searchSqlite, List.take_of_length_le hlen, mem_sortDesc, List.mem_filter]
    exact Iff.rfl
  · have hlen : (st.filter (jsonlMatch q)).length ≤ st.length :=
      List.length_filter_le _ _
    rw [searchJsonl, List.take_of_length_le hlen, List.mem_filter]
    exact Iff.rfl

/-- C6 fails on the code: on the log backend `listAll` returns file order —
oldest first — not most-recent-first. -/
theorem c6_counterexample_jsonl_order :
    ¬ RecentFirst (listAllJsonl twoSaves 200) := by decide

/-- C6 amended: the structured backend returns `search` and `listAll` results
most-recent-first (`ORDER BY created_at DESC`); the log backend returns both
in file order — oldest-first whenever the log was appended under a monotone
clock — not most-recent-first. -/
theorem c6_amended_ordering (st : List MemoryItem) (q : String) (n : Nat) :
    RecentFirst (listAllSqlite st n) ∧ RecentFirst (searchSqlite st q n) ∧
    (OldestFirst st →
      OldestFirst (listAllJsonl st n) ∧ OldestFirst (searchJsonl st q n)) := by
  refine ⟨?_, ?_, ?_⟩
  · exact List.Pairwise.sublist (List.take_sublist _ _) (sortDesc_sorted st)
  · exact List.Pairwise.sublist (List.take_sublist _ _) (sortDesc_sorted _)
  · intro h
    constructor
    · unfold listAllJsonl
      by_cases h0 : n = 0
      · rw [if_pos h0]; exact h
      · rw [if_neg h0]
        exact List.Pairwise.sublist (List.drop_sublist _ _) h
    · exact List.Pairwise.sublist
        (List.Sublist.trans (List.take_sublist _ _) (List.filter_sublist _)) h

/-- C6 amended, witnessed on a two-item store saved under a monotone clock. -/
theorem c6_witness :
    RecentFirst (listAllSqlite twoSaves 200) ∧
    OldestFirst (listAllJsonl twoSaves 200) :=
  ⟨(c6_amended_ordering twoSaves "note" 200).1,
   ((c6_amended_ordering twoSaves "note" 200).2.2 (by decide)).1⟩

/-- C3 fails on the code: with fifty older matching items already stored, the
log backend's search keeps the FIRST fifty matches in file order, so the item
just saved falls past the default limit and is absent from the results. -/
theorem c3_counterexample_limit_cuts_new_item :
    ((searchJsonl (saveKV fullJsonlStore "id-new" "color" "blue"
        "2025-01-02T00:00:00.000Z").2 "color" 50).any
      (fun r => r.key == "color" && r.value == "blue")) = false := by decide

/-- C3 amended: after `save(key, value)`, a `search(key)` with the default
limit 50 returns the saved item among its results — on the log backend
provided fewer than fifty already-stored items match the key, and on the
structured backend provided the fresh timestamp is strictly later than every
stored one (the saved item is then the first result). -/
theorem c3_amended_roundtrip (st : List MemoryItem) (id key value now : String)
    (hkey : key ≠ "") (hvalue : value ≠ "")
    (hjson : (st.filter (jsonlMatch key)).length < 50)
    (hsql : ∀ r ∈ st, lexLtB r.created_at.data now.data = true) :
    (∃ r ∈ searchJsonl (saveKV st id key value now).2 key 50,
      r.key = key ∧ r.value = value) ∧
    (∃ r ∈ searchSqlite (saveKV st id key value now).2 key 50,
      r.key = key ∧ r.value = value) := by
  have hjm : jsonlMatch key ⟨id, key, value, now⟩ = true := by
    simp [jsonlMatch, strIncludes, hasSub_self]
  have hsm : sqliteMatch key ⟨id, key, value, now⟩ = true := by
    simp [sqliteMatch, strIncludes, hasSub_self]
  constructor
  · have hfil : (st ++ [(⟨id, key, value, now⟩ : MemoryItem)]).filter (jsonlMatch key) =
        st.filter (jsonlMatch key) ++ [⟨id, key, value, now⟩] := by
      rw [List.filter_append]
      congr 1
      simp [List.filter_cons, hjm]
    have hlen : (st.filter (jsonlMatch key) ++ [(⟨id, key, value, now⟩ : MemoryItem)]).length ≤ 50 := by
      rw [List.length_append, List.length_singleton]
      omega
    refine ⟨⟨id, key, value, now⟩, ?_, rfl, rfl⟩
    show (⟨id, key, value, now⟩ : MemoryItem) ∈
      searchJsonl (st ++ [⟨id, key, value, now⟩]) key 50
    rw [searchJsonl, hfil, List.take_of_length_le hlen]
    exact List.mem_append_right _ (List.mem_singleton.mpr rfl)
  · have hfil : (st ++ [(⟨id, key, value, now⟩ : MemoryItem)]).filter (sqliteMatch key) =
        st.filter (sqliteMatch key) ++ [⟨id, key, value, now⟩] := by
      rw [List.filter_append]
      congr 1
      simp [List.filter_cons, hsm]
    have hnewest : ∀ y ∈ st.filter (sqliteMatch key),
        lexLtB y.created_at.data
          ((⟨id, key, value, now⟩ : MemoryItem).created_at.data) = true := by
      intro y hy
      exact hsql y (List.mem_of_mem_filter hy)
    refine ⟨⟨id, key, value, now⟩, ?_, rfl, rfl⟩
    show (⟨id, key, value, now⟩ : MemoryItem) ∈
      searchSqlite (st ++ [⟨id, key, value, now⟩]) key 50
    rw [searchSqlite, hfil, sortDesc_append_newest hnewest]
    have htake : ((⟨id, key, value, now⟩ : MemoryItem) ::
        sortDesc (st.filter (sqliteMatch key))).take 50 =
        (⟨id, key, value, now⟩ : MemoryItem) ::
          (sortDesc (st.filter (sqliteMatch key))).take 49 := rfl
    rw [htake]
    exact List.mem_cons_self _ _

/-- C3 amended, witnessed by saving into the empty store. -/
theorem c3_witness :
    (("color" : String) ≠ "" ∧ ("blue" : String) ≠ "" ∧
      (([] : List MemoryItem).filter (jsonlMatch "color")).length < 50 ∧
      (∀ r ∈ ([] : List MemoryItem),
        lexLtB r.created_at.data ("2025-01-02T00:00:00.000Z" : String).data = true)) ∧
    ((∃ r ∈ searchJsonl (saveKV [] "id-new" "color" "blue"
        "2025-01-02T00:00:00.000Z").2 "color" 50, r.key = "color" ∧ r.value = "blue") ∧
     (∃ r ∈ searchSqlite (saveKV [] "id-new" "color" "blue"
        "2025-01-02T00:00:00.000Z").2 "color" 50, r.key = "color" ∧ r.value = "blue")) :=
  ⟨⟨by decide, by decide, by decide, by decide⟩,
   c3_amended_roundtrip [] "id-new" "color" "blue" "2025-01-02T00:00:00.000Z"
     (by decide) (by decide) (by decide) (by decide)⟩

/-- C8 fails on the code: two saves from the empty store, then `listAll` — the
log backend returns the items oldest-first, the structured backend
newest-first, so the two backends are not observationally equivalent. -/
theorem c8_counterexample_order_divergence :
    listAllJsonl twoSaves 10 ≠ listAllSqlite twoSaves 10 := by decide

/-- C8 amended: from an empty store under a strictly monotone clock the two
backends agree on `save` (one shared durable append) and on `forgetToday`
(same kept items, same removed count, given the 10-character day prefix),
and `listAll`/`search` return the same items in REVERSED order — log backend
oldest-first, structured backend most-recent-first — provided the `listAll`
limit is positive, the `search` limit covers the stored rows, and the query
and the stored keys are lowercase (the key test differs in case handling,
see C5).  The backends are equivalent only up to result order, not
observationally identical. -/
theorem c8_amended_backend_equivalence_up_to_order
    (st : List MemoryItem) (today q : String) (n m : Nat)
    (hasc : StrictAsc st) (hn : 0 < n) (hm : st.length ≤ m)
    (htoday : today.data.length = 10)
    (hq : lowerStr q = q) (hkeys : ∀ r ∈ st, lowerStr r.key = r.key) :
    listAllJsonl st n = (listAllSqlite st n).reverse ∧
    searchJsonl st q m = (searchSqlite st q m).reverse ∧
    forgetTodayJsonl st today = forgetTodaySqlite st today := by
  refine ⟨?_, ?_, ?_⟩
  · rw [listAllSqlite, sortDesc_of_strictAsc hasc, List.take_reverse,
      List.reverse_reverse, listAllJsonl, if_neg (Nat.pos_iff_ne_zero.mp hn)]
  · have hpred : ∀ r ∈ st, jsonlMatch q r = sqliteMatch q r := by
      intro r hr
      unfold jsonlMatch sqliteMatch
      rw [hq, hkeys r hr]
    have hfeq : st.filter (jsonlMatch q) = st.filter (sqliteMatch q) :=
      List.filter_congr hpred
    have hascf : StrictAsc (st.filter (sqliteMatch q)) :=
      List.Pairwise.filter _ hasc
    have hlenf : (st.filter (sqliteMatch q)).length ≤ m :=
      le_trans (List.length_filter_le _ _) hm
    have hlenr : (st.filter (sqliteMatch q)).reverse.length ≤ m := by
      rw [List.length_reverse]
      exact hlenf
    rw [searchJsonl, searchSqlite, hfeq, sortDesc_of_strictAsc hascf,
      List.take_of_length_le hlenf, List.take_of_length_le hlenr,
      List.reverse_reverse]
  · have hpred : ∀ r : MemoryItem,
        strStarts r.created_at today = (strTake r.created_at 10 == today) := by
      intro r
      by_cases h : strStarts r.created_at today = true
      · rw [h]
        have htk := (listStarts_eq_take r.created_at.data today.data).mp h
        rw [htoday] at htk
        symm
        exact beq_iff_eq.mpr (String.ext htk)
      · have h2 : strStarts r.created_at today = false := Bool.eq_false_iff.mpr h
        rw [h2]
        symm
        rw [beq_eq_false_iff_ne]
        intro hcontra
        apply h
        have htk : r.created_at.data.take today.data.length = today.data := by
          rw [htoday]
          exact congrArg String.data hcontra
        exact (listStarts_eq_take _ _).mpr htk
    have hfeq : st.filter (fun r => !(strStarts r.created_at today)) =
        st.filter (fun r => !(strTake r.created_at 10 == today)) :=
      List.filter_congr (fun a _ => by rw [hpred a])
    have hsplit : (st.filter (fun r => strTake r.created_at 10 == today)).length +
        (st.filter (fun r => !(strTake r.created_at 10 == today))).length =
        st.length := by
      simpa using filter_length_split (fun r => strTake r.created_at 10 == today) st
    show (st.filter (fun r => !(strStarts r.created_at today)),
        st.length - (st.filter (fun r => !(strStarts r.created_at today))).length) =
      (st.filter (fun r => !(strTake r.created_at 10 == today)),
        (st.filter (fun r => strTake r.created_at 10 == today)).length)
    rw [hfeq]
    have hcount : st.length -
        (st.filter (fun r => !(strTake r.created_at 10 == today))).length =
        (st.filter (fun r => strTake r.created_at 10 == today)).length := by
      omega
    rw [hcount]

/-- C8 amended, witnessed on the two-item store built by two saves. -/
theorem c8_witness :
    (StrictAsc twoSaves ∧ (0 : Nat) < 10 ∧ twoSaves.length ≤ 10 ∧
      ("2025-01-05" : String).data.length = 10 ∧ lowerStr "note" = "note" ∧
      (∀ r ∈ twoSaves, lowerStr r.key = r.key)) ∧
    (listAllJsonl twoSaves 10 = (listAllSqlite twoSaves 10).reverse ∧
     searchJsonl twoSaves "note" 10 = (searchSqlite twoSaves "note" 10).reverse ∧
     forgetTodayJsonl twoSaves "2025-01-05" = forgetTodaySqlite twoSaves "2025-01-05") :=
  ⟨⟨by decide, by decide, by decide, by decide, by decide, by decide⟩,
   c8_amended_backend_equivalence_up_to_order twoSaves "2025-01-05" "note" 10 10
     (by decide) (by decide) (by decide) (by decide) (by decide) (by decide)⟩

/-- C4 amended, witnessed on a one-item store. -/
theorem c4_witness :
    searchJsonl [demoItem] "" 50 = [demoItem].take 50 ∧
    searchSqlite [demoItem] "" 50 = (sortDesc [demoItem]).take 50 :=
  c4_amended_empty_query_returns_all [demoItem] 50

/-- C5 amended, witnessed on a one-item store and the query "name". -/
theorem c5_witness :
    (caseItem ∈ searchSqlite [caseItem] "name" [caseItem].length ↔
      caseItem ∈ [caseItem] ∧ specMatch "name" caseItem = true) ∧
    (caseItem ∈ searchJsonl [caseItem] "name" [caseItem].length ↔
      caseItem ∈ [caseItem] ∧
        (strIncludes caseItem.key "name" ||
          strIncludes (lowerStr caseItem.value) (lowerStr "name")) = true) :=
  c5_amended_match_semantics [caseItem] "name" caseItem

/-- C7, witnessed on a one-item store whose item was created today. -/
theorem c7_witness :
    (forgetTodayJsonl [demoItem] "2025-01-03").2 =
      ([demoItem].filter (fun r => strStarts r.created_at "2025-01-03")).length :=
  (c7_forgetToday_purges_exactly_today [demoItem] "2025-01-03").1
